import Mathlib

/-!
Shallow embedding of the extproctor test-execution engine.

The definitions below are translated from the Go sources:
the expectation matcher (`internal/comparator`), the protocol driver
(`internal/client/client.go`), the golden-file conversion
(`internal/golden`), and the run orchestrator (`internal/runner/runner.go`).

Go maps (`map[string]string`) are modelled as association lists whose order
stands for one possible iteration order of the map; Go's iteration order
over a map is unspecified, so any permutation of the entry list (with
pairwise distinct keys) denotes the same map value.  Byte slices are
modelled as `String` (the Go code only ever compares them via
`string(...)` equality).
-/

namespace Extproctor

/-- `extproctorv1.ProcessingPhase` enum. -/
inductive ProcessingPhase
  | UNSPECIFIED
  | REQUEST_HEADERS
  | REQUEST_BODY
  | REQUEST_TRAILERS
  | RESPONSE_HEADERS
  | RESPONSE_BODY
  | RESPONSE_TRAILERS
deriving DecidableEq

/-- `corev3.HeaderValue`. -/
structure HeaderValue where
  key : String
  value : String
deriving DecidableEq

/-- `corev3.HeaderValueOption`; the wrapped `Header` pointer may be nil. -/
structure HeaderValueOption where
  header : Option HeaderValue
deriving DecidableEq

/-- `extprocv3.HeaderMutation`. -/
structure HeaderMutationV3 where
  setHeaders : List HeaderValueOption
  removeHeaders : List String
deriving DecidableEq

/-- `extprocv3.BodyMutation`, a oneof of a replacement body or a clear flag. -/
inductive BodyMutation
  | bodyMut (b : String)
  | clearBodyMut (c : Bool)
deriving DecidableEq

/-- `GetBody()` on a possibly-nil `BodyMutation`. -/
def BodyMutation.getBody : Option BodyMutation → String
  | some (.bodyMut b) => b
  | _ => ""

/-- `GetClearBody()` on a possibly-nil `BodyMutation`. -/
def BodyMutation.getClearBody : Option BodyMutation → Bool
  | some (.clearBodyMut c) => c
  | _ => false

/-- `extprocv3.CommonResponse` (only the fields the comparator reads). -/
structure CommonResponse where
  headerMutation : Option HeaderMutationV3
  bodyMutation : Option BodyMutation
deriving DecidableEq

/-- `extprocv3.HeadersResponse`. -/
structure HeadersResponseV3 where
  response : Option CommonResponse
deriving DecidableEq

/-- `extprocv3.BodyResponse`. -/
structure BodyResponseV3 where
  response : Option CommonResponse
deriving DecidableEq

/-- `extprocv3.TrailersResponse`. -/
structure TrailersResponseV3 where
  headerMutation : Option HeaderMutationV3
deriving DecidableEq

/-- `typev3.HttpStatus` (the code is an int32-valued enum). -/
structure HttpStatus where
  code : Int
deriving DecidableEq

/-- `extprocv3.GrpcStatus`. -/
structure GrpcStatusV3 where
  status : Int
deriving DecidableEq

/-- `extprocv3.ImmediateResponse`. -/
structure ImmediateResponseV3 where
  status : Option HttpStatus
  body : String
  headers : Option HeaderMutationV3
  grpcStatus : Option GrpcStatusV3
  details : String
deriving DecidableEq

/-- The oneof inside `extprocv3.ProcessingResponse`. -/
inductive ProcResponse
  | requestHeaders (r : HeadersResponseV3)
  | responseHeaders (r : HeadersResponseV3)
  | requestBody (r : BodyResponseV3)
  | responseBody (r : BodyResponseV3)
  | requestTrailers (r : TrailersResponseV3)
  | responseTrailers (r : TrailersResponseV3)
  | immediateResponse (r : ImmediateResponseV3)
deriving DecidableEq

/-- `extprocv3.ProcessingResponse`; the oneof may be unset. -/
structure ProcessingResponse where
  response : Option ProcResponse
deriving DecidableEq

/-- `GetRequestHeaders()`. -/
def ProcessingResponse.getRequestHeaders (p : ProcessingResponse) : Option HeadersResponseV3 :=
  match p.response with
  | some (.requestHeaders r) => some r
  | _ => none

/-- `GetResponseHeaders()`. -/
def ProcessingResponse.getResponseHeaders (p : ProcessingResponse) : Option HeadersResponseV3 :=
  match p.response with
  | some (.responseHeaders r) => some r
  | _ => none

/-- `GetRequestBody()`. -/
def ProcessingResponse.getRequestBody (p : ProcessingResponse) : Option BodyResponseV3 :=
  match p.response with
  | some (.requestBody r) => some r
  | _ => none

/-- `GetResponseBody()`. -/
def ProcessingResponse.getResponseBody (p : ProcessingResponse) : Option BodyResponseV3 :=
  match p.response with
  | some (.responseBody r) => some r
  | _ => none

/-- `GetRequestTrailers()`. -/
def ProcessingResponse.getRequestTrailers (p : ProcessingResponse) : Option TrailersResponseV3 :=
  match p.response with
  | some (.requestTrailers r) => some r
  | _ => none

/-- `GetResponseTrailers()`. -/
def ProcessingResponse.getResponseTrailers (p : ProcessingResponse) : Option TrailersResponseV3 :=
  match p.response with
  | some (.responseTrailers r) => some r
  | _ => none

/-- `GetImmediateResponse()`. -/
def ProcessingResponse.getImmediateResponse (p : ProcessingResponse) : Option ImmediateResponseV3 :=
  match p.response with
  | some (.immediateResponse r) => some r
  | _ => none

/-- Go's `fmt.Sprintf("%T", resp.Response)`: the dynamic type name of the
oneof wrapper, `<nil>` for an unset oneof. -/
def typeName : Option ProcResponse → String
  | none => "<nil>"
  | some (.requestHeaders _) => "*ext_procv3.ProcessingResponse_RequestHeaders"
  | some (.responseHeaders _) => "*ext_procv3.ProcessingResponse_ResponseHeaders"
  | some (.requestBody _) => "*ext_procv3.ProcessingResponse_RequestBody"
  | some (.responseBody _) => "*ext_procv3.ProcessingResponse_ResponseBody"
  | some (.requestTrailers _) => "*ext_procv3.ProcessingResponse_RequestTrailers"
  | some (.responseTrailers _) => "*ext_procv3.ProcessingResponse_ResponseTrailers"
  | some (.immediateResponse _) => "*ext_procv3.ProcessingResponse_ImmediateResponse"

/-- `extproctorv1.HeaderMutation` expectation message. -/
structure HeaderMutationExp where
  setHeaders : List (String × String)
  removeHeaders : List String
deriving DecidableEq

/-- The `common_response` sub-message of a headers expectation. -/
structure CommonResponseExp where
  headerMutation : Option HeaderMutationExp
deriving DecidableEq

/-- `extproctorv1.HeadersExpectation`. -/
structure HeadersExpectation where
  commonResponse : Option CommonResponseExp
  setHeaders : List (String × String)
  removeHeaders : List String
deriving DecidableEq

/-- `extproctorv1.BodyExpectation`. -/
structure BodyExpectation where
  body : String
  clearBody : Bool
deriving DecidableEq

/-- `extproctorv1.TrailersExpectation`. -/
structure TrailersExpectation where
  setTrailers : List (String × String)
  removeTrailers : List String
deriving DecidableEq

/-- `extproctorv1.GrpcStatus`. -/
structure GrpcStatusExp where
  status : Int
deriving DecidableEq

/-- `extproctorv1.ImmediateExpectation`. -/
structure ImmediateExpectation where
  statusCode : Int
  body : String
  headers : List (String × String)
  details : String
  grpcStatus : Option GrpcStatusExp
deriving DecidableEq

/-- The response oneof of `extproctorv1.ExtProcExpectation`. -/
inductive ExpResponse
  | headersResponse (e : HeadersExpectation)
  | bodyResponse (e : BodyExpectation)
  | trailersResponse (e : TrailersExpectation)
  | immediateResponse (e : ImmediateExpectation)
deriving DecidableEq

/-- `extproctorv1.ExtProcExpectation`. -/
structure ExtProcExpectation where
  phase : ProcessingPhase
  response : Option ExpResponse
deriving DecidableEq

/-- `client.PhaseResponse`. -/
structure PhaseResponse where
  phase : ProcessingPhase
  response : ProcessingResponse
deriving DecidableEq

/-- `client.ProcessingResult`. -/
structure ProcessingResult where
  responses : List PhaseResponse
deriving DecidableEq

/-- `comparator.Difference`. -/
structure Difference where
  phase : ProcessingPhase
  path : String
  expected : String
  actual : String
deriving DecidableEq

/-- `comparator.MatchedExpectation`. -/
structure MatchedExp where
  expectation : ExtProcExpectation
  response : PhaseResponse
deriving DecidableEq

/-- `comparator.ComparisonResult`. -/
structure ComparisonResult where
  passed : Bool
  differences : List Difference
  matched : List MatchedExp
  unmatched : List ExtProcExpectation
deriving DecidableEq

namespace Comparator

/-- The inner search loop shared textually by all the set-header comparisons:
the first option whose `Header` is non-nil and whose key equals `k`. -/
def findHeaderValue (k : String) : List HeaderValueOption → Option HeaderValue
  | [] => none
  | o :: os =>
    match o.header with
    | some hv => if hv.key = k then some hv else findHeaderValue k os
    | none => findHeaderValue k os

/-- One iteration of the set-headers loop in `compareHeaderMutation`. -/
def hmSetKeyDiff (phase : ProcessingPhase) (setHdrs : List HeaderValueOption)
    (kv : String × String) : Option Difference :=
  match findHeaderValue kv.1 setHdrs with
  | some hv =>
    if hv.value = kv.2 then none
    else some ⟨phase, "header_mutation.set_headers[" ++ kv.1 ++ "]", kv.2, hv.value⟩
  | none => some ⟨phase, "header_mutation.set_headers[" ++ kv.1 ++ "]", kv.2, "<not set>"⟩

/-- One iteration of the remove-headers loop in `compareHeaderMutation`. -/
def hmRemoveKeyDiff (phase : ProcessingPhase) (removeHdrs : List String)
    (k : String) : Option Difference :=
  if removeHdrs.contains k then none
  else some ⟨phase, "header_mutation.remove_headers[" ++ k ++ "]", "removed", "<not removed>"⟩

/-- `Comparator.compareHeaderMutation`. -/
def compareHeaderMutation (phase : ProcessingPhase) (exp : HeaderMutationExp)
    (resp : Option CommonResponse) : List Difference :=
  match resp with
  | none =>
    if exp.setHeaders.length > 0 ∨ exp.removeHeaders.length > 0 then
      [⟨phase, "header_mutation", "present", "nil"⟩]
    else []
  | some cr =>
    match cr.headerMutation with
    | none =>
      if exp.setHeaders.length > 0 ∨ exp.removeHeaders.length > 0 then
        [⟨phase, "header_mutation", "present", "nil"⟩]
      else []
    | some hm =>
      exp.setHeaders.filterMap (hmSetKeyDiff phase hm.setHeaders)
        ++ exp.removeHeaders.filterMap (hmRemoveKeyDiff phase hm.removeHeaders)

/-- Key order on map entries; Go `fmt` prints a `map[string]string` with its
keys sorted. -/
def keyLE (a b : String × String) : Prop := a.1 ≤ b.1

instance : DecidableRel keyLE := fun a b => inferInstanceAs (Decidable (a.1 ≤ b.1))

/-- Sort a map's entry list by key (the order `fmt.Sprintf("%v", m)` uses). -/
def sortByKey (l : List (String × String)) : List (String × String) :=
  l.insertionSort keyLE

/-- `fmt.Sprintf("%v", m)` for a `map[string]string`. -/
def goMapFmt (l : List (String × String)) : String :=
  "map[" ++ String.intercalate " " ((sortByKey l).map (fun p => p.1 ++ ":" ++ p.2)) ++ "]"

/-- One iteration of the loop in `compareSetHeaders`. -/
def setHeadersKeyDiff (phase : ProcessingPhase) (setHdrs : List HeaderValueOption)
    (kv : String × String) : Option Difference :=
  match findHeaderValue kv.1 setHdrs with
  | some hv =>
    if hv.value = kv.2 then none
    else some ⟨phase, "set_headers[" ++ kv.1 ++ "]", kv.2, hv.value⟩
  | none => some ⟨phase, "set_headers[" ++ kv.1 ++ "]", kv.2, "<not set>"⟩

/-- `Comparator.compareSetHeaders`. -/
def compareSetHeaders (phase : ProcessingPhase) (exp : List (String × String))
    (resp : Option CommonResponse) : List Difference :=
  match resp with
  | none =>
    if exp.length > 0 then
      [⟨phase, "set_headers", goMapFmt exp, "<no header mutation>"⟩]
    else []
  | some cr =>
    match cr.headerMutation with
    | none =>
      if exp.length > 0 then
        [⟨phase, "set_headers", goMapFmt exp, "<no header mutation>"⟩]
      else []
    | some hm => exp.filterMap (setHeadersKeyDiff phase hm.setHeaders)

/-- One iteration of the loop in `compareRemoveHeaders`. -/
def removeHeadersKeyDiff (phase : ProcessingPhase) (removeHdrs : List String)
    (k : String) : Option Difference :=
  if removeHdrs.contains k then none
  else some ⟨phase, "remove_headers[" ++ k ++ "]", "removed", "<not removed>"⟩

/-- `Comparator.compareRemoveHeaders`. -/
def compareRemoveHeaders (phase : ProcessingPhase) (exp : List String)
    (resp : Option CommonResponse) : List Difference :=
  match resp with
  | none =>
    if exp.length > 0 then
      [⟨phase, "remove_headers", String.intercalate ", " exp, "<no header mutation>"⟩]
    else []
  | some cr =>
    match cr.headerMutation with
    | none =>
      if exp.length > 0 then
        [⟨phase, "remove_headers", String.intercalate ", " exp, "<no header mutation>"⟩]
      else []
    | some hm => exp.filterMap (removeHeadersKeyDiff phase hm.removeHeaders)

/-- `Comparator.compareHeadersResponse`. -/
def compareHeadersResponse (phase : ProcessingPhase) (exp : HeadersExpectation)
    (resp : ProcessingResponse) : List Difference :=
  match (resp.getRequestHeaders).orElse (fun _ => resp.getResponseHeaders) with
  | none => [⟨phase, "response_type", "headers_response", typeName resp.response⟩]
  | some actual =>
    (match exp.commonResponse with
     | some cre =>
       match cre.headerMutation with
       | some hm => compareHeaderMutation phase hm actual.response
       | none => []
     | none => [])
    ++ (if exp.setHeaders.length > 0 then
          compareSetHeaders phase exp.setHeaders actual.response
        else [])
    ++ (if exp.removeHeaders.length > 0 then
          compareRemoveHeaders phase exp.removeHeaders actual.response
        else [])

/-- `Comparator.compareBodyResponse`. -/
def compareBodyResponse (phase : ProcessingPhase) (exp : BodyExpectation)
    (resp : ProcessingResponse) : List Difference :=
  match (resp.getRequestBody).orElse (fun _ => resp.getResponseBody) with
  | none => [⟨phase, "response_type", "body_response", typeName resp.response⟩]
  | some actual =>
    (match actual.response with
     | none => []
     | some cr =>
       if exp.clearBody then
         if ¬ (BodyMutation.getClearBody cr.bodyMutation) then
           [⟨phase, "body.clear_body", "true", "false"⟩]
         else []
       else [])
    ++ (match actual.response with
        | none => []
        | some cr =>
          if exp.body.length > 0 then
            match cr.bodyMutation with
            | none => [⟨phase, "body.body_mutation", exp.body, "<nil>"⟩]
            | some bm =>
              if BodyMutation.getBody (some bm) ≠ exp.body then
                [⟨phase, "body.body_mutation.body", exp.body, BodyMutation.getBody (some bm)⟩]
              else []
          else [])

/-- One iteration of the set-trailers loop in `compareTrailersResponse`. -/
def setTrailersKeyDiff (phase : ProcessingPhase) (setHdrs : List HeaderValueOption)
    (kv : String × String) : Option Difference :=
  match findHeaderValue kv.1 setHdrs with
  | some hv =>
    if hv.value = kv.2 then none
    else some ⟨phase, "set_trailers[" ++ kv.1 ++ "]", kv.2, hv.value⟩
  | none => some ⟨phase, "set_trailers[" ++ kv.1 ++ "]", kv.2, "<not set>"⟩

/-- `Comparator.compareTrailersResponse`.  Note: the Go code checks only the
set-trailers map, and only when the actual mutation is non-nil; the
`remove_trailers` field of the expectation is never consulted. -/
def compareTrailersResponse (phase : ProcessingPhase) (exp : TrailersExpectation)
    (resp : ProcessingResponse) : List Difference :=
  match (resp.getRequestTrailers).orElse (fun _ => resp.getResponseTrailers) with
  | none => [⟨phase, "response_type", "trailers_response", typeName resp.response⟩]
  | some actual =>
    if exp.setTrailers.length > 0 then
      match actual.headerMutation with
      | some hm => exp.setTrailers.filterMap (setTrailersKeyDiff phase hm.setHeaders)
      | none => []
    else []

/-- One iteration of the headers loop in `compareImmediateResponse`. -/
def immHeaderKeyDiff (phase : ProcessingPhase) (setHdrs : List HeaderValueOption)
    (kv : String × String) : Option Difference :=
  match findHeaderValue kv.1 setHdrs with
  | some hv =>
    if hv.value = kv.2 then none
    else some ⟨phase, "immediate_response.headers[" ++ kv.1 ++ "]", kv.2, hv.value⟩
  | none => some ⟨phase, "immediate_response.headers[" ++ kv.1 ++ "]", kv.2, "<not set>"⟩

/-- `Comparator.compareImmediateResponse`. -/
def compareImmediateResponse (phase : ProcessingPhase) (exp : ImmediateExpectation)
    (resp : ProcessingResponse) : List Difference :=
  match resp.getImmediateResponse with
  | none => [⟨phase, "response_type", "immediate_response", typeName resp.response⟩]
  | some actual =>
    (if exp.statusCode > 0 then
       let actualStatus : Int :=
         match actual.status with
         | some s => s.code
         | none => 0
       if actualStatus ≠ exp.statusCode then
         [⟨phase, "immediate_response.status_code", toString exp.statusCode,
           toString actualStatus⟩]
       else []
     else [])
    ++ (if exp.body.length > 0 then
          if actual.body ≠ exp.body then
            [⟨phase, "immediate_response.body", exp.body, actual.body⟩]
          else []
        else [])
    ++ (if exp.headers.length > 0 then
          match actual.headers with
          | some hm => exp.headers.filterMap (immHeaderKeyDiff phase hm.setHeaders)
          | none => []
        else [])

/-- `Comparator.compareExpectation`: dispatch on the expectation's oneof; an
unset oneof falls through the type switch and yields no differences. -/
def compareExpectation (exp : ExtProcExpectation) (resp : ProcessingResponse) :
    List Difference :=
  match exp.response with
  | some (.headersResponse e) => compareHeadersResponse exp.phase e resp
  | some (.bodyResponse e) => compareBodyResponse exp.phase e resp
  | some (.trailersResponse e) => compareTrailersResponse exp.phase e resp
  | some (.immediateResponse e) => compareImmediateResponse exp.phase e resp
  | none => []

/-- The inner per-expectation scan of `Comparator.Compare`: walk the actual
responses in order, skip phase mismatches, stop at the first same-phase
response with zero differences (returning it), and accumulate the
differences of every same-phase response seen before that point. -/
def scanResponses (exp : ExtProcExpectation) :
    List PhaseResponse → List Difference × Option PhaseResponse
  | [] => ([], none)
  | resp :: rest =>
    if resp.phase = exp.phase then
      let diffs := compareExpectation exp resp.response
      if diffs.isEmpty then ([], some resp)
      else
        let r := scanResponses exp rest
        (diffs ++ r.1, r.2)
    else scanResponses exp rest

/-- One iteration of the outer loop of `Comparator.Compare`. -/
def compareStep (result : ProcessingResult) (cr : ComparisonResult)
    (exp : ExtProcExpectation) : ComparisonResult :=
  let scanned := scanResponses exp result.responses
  match scanned.2 with
  | some resp =>
    { cr with
      differences := cr.differences ++ scanned.1
      matched := cr.matched ++ [⟨exp, resp⟩] }
  | none =>
    { cr with
      passed := false
      differences := cr.differences ++ scanned.1
      unmatched := cr.unmatched ++ [exp] }

/-- `Comparator.Compare`. -/
def Compare (expectations : List ExtProcExpectation) (result : ProcessingResult) :
    ComparisonResult :=
  expectations.foldl (compareStep result) ⟨true, [], [], []⟩

/-- Whether a phase response satisfies an expectation: same phase and a
field-by-field comparison with zero differences. -/
def matchesExp (exp : ExtProcExpectation) (pr : PhaseResponse) : Bool :=
  decide (pr.phase = exp.phase) && (compareExpectation exp pr.response).isEmpty

/-- Whether some actual response satisfies the expectation. -/
def satExp (result : ProcessingResult) (exp : ExtProcExpectation) : Bool :=
  result.responses.any (matchesExp exp)

end Comparator

namespace Client

/-- `extproctorv1.HttpRequest` (the declarative request of a test case). -/
structure HttpRequest where
  method : String
  path : String
  scheme : String
  authority : String
  headers : List (String × String)
  body : String
  trailers : List (String × String)
  processRequestBody : Bool
  processRequestTrailers : Bool
deriving DecidableEq

/-- `extprocv3.HttpHeaders` as sent by the driver. -/
structure HttpHeadersMsg where
  headers : List HeaderValue
  endOfStream : Bool
deriving DecidableEq

/-- `extprocv3.HttpBody` as sent by the driver. -/
structure HttpBodyMsg where
  body : String
  endOfStream : Bool
deriving DecidableEq

/-- `extprocv3.HttpTrailers` as sent by the driver. -/
structure HttpTrailersMsg where
  trailers : List HeaderValue
deriving DecidableEq

/-- The oneof inside `extprocv3.ProcessingRequest` (the driver only ever
builds the three REQUEST_* variants). -/
inductive ProcessingRequestMsg
  | requestHeaders (m : HttpHeadersMsg)
  | requestBody (m : HttpBodyMsg)
  | requestTrailers (m : HttpTrailersMsg)
deriving DecidableEq

/-- `client.buildRequestHeaders`. -/
def buildRequestHeaders (req : HttpRequest) : HttpHeadersMsg :=
  let headers : List HeaderValue := [⟨":method", req.method⟩, ⟨":path", req.path⟩]
  let headers := if req.scheme ≠ "" then headers ++ [⟨":scheme", req.scheme⟩] else headers
  let headers :=
    if req.authority ≠ "" then headers ++ [⟨":authority", req.authority⟩] else headers
  let headers := headers ++ req.headers.map (fun kv => ⟨kv.1, kv.2⟩)
  ⟨headers, !req.processRequestBody && !req.processRequestTrailers⟩

/-- `client.buildRequestBody`. -/
def buildRequestBody (req : HttpRequest) : HttpBodyMsg :=
  ⟨req.body, !req.processRequestTrailers⟩

/-- `client.buildRequestTrailers`. -/
def buildRequestTrailers (req : HttpRequest) : HttpTrailersMsg :=
  ⟨req.trailers.map (fun kv => ⟨kv.1, kv.2⟩)⟩

/-- `client.isImmediateResponse`. -/
def isImmediateResponse (resp : ProcessingResponse) : Bool :=
  resp.getImmediateResponse.isSome

instance exceptDecEq {ε α : Type} [DecidableEq ε] [DecidableEq α] :
    DecidableEq (Except ε α)
  | .ok a, .ok b =>
    if h : a = b then .isTrue (by rw [h])
    else .isFalse (by intro he; cases he; exact h rfl)
  | .ok _, .error _ => .isFalse (by intro h; cases h)
  | .error _, .ok _ => .isFalse (by intro h; cases h)
  | .error e, .error f =>
    if h : e = f then .isTrue (by rw [h])
    else .isFalse (by intro he; cases he; exact h rfl)

/-- The observable outcome of one `Client.Process` call: the protocol
messages sent on the stream, the returned result or transport error, and
whether the send side was closed.  The stream is modelled by the list of
responses the processor returns to consecutive `Recv` calls; an exhausted
list models a receive failure. -/
structure ProcessTrace where
  sent : List ProcessingRequestMsg
  outcome : Except String ProcessingResult
  closedSend : Bool
deriving DecidableEq

/-- The trailers phase at the end of `Client.Process`: send REQUEST_TRAILERS
iff the flag is set and the trailers are non-empty, then close the send side. -/
def trailersPhase (req : HttpRequest) (sentAcc : List ProcessingRequestMsg)
    (resAcc : List PhaseResponse) (oracle : List ProcessingResponse) : ProcessTrace :=
  if req.processRequestTrailers ∧ req.trailers.length > 0 then
    let tmsg := ProcessingRequestMsg.requestTrailers (buildRequestTrailers req)
    match oracle with
    | [] =>
      ⟨sentAcc ++ [tmsg], .error "failed to receive response for request trailers", false⟩
    | r :: _ =>
      ⟨sentAcc ++ [tmsg], .ok ⟨resAcc ++ [⟨.REQUEST_TRAILERS, r⟩]⟩, true⟩
  else ⟨sentAcc, .ok ⟨resAcc⟩, true⟩

/-- `Client.Process`: drive the phases in order, stopping early on an
immediate (short-circuiting) response. -/
def Process (req : HttpRequest) (oracle : List ProcessingResponse) : ProcessTrace :=
  let hmsg := ProcessingRequestMsg.requestHeaders (buildRequestHeaders req)
  match oracle with
  | [] => ⟨[hmsg], .error "failed to receive response for request headers", false⟩
  | r0 :: o1 =>
    let res0 : List PhaseResponse := [⟨.REQUEST_HEADERS, r0⟩]
    if isImmediateResponse r0 then ⟨[hmsg], .ok ⟨res0⟩, true⟩
    else if req.processRequestBody ∧ req.body.length > 0 then
      let bmsg := ProcessingRequestMsg.requestBody (buildRequestBody req)
      match o1 with
      | [] =>
        ⟨[hmsg, bmsg], .error "failed to receive response for request body", false⟩
      | r1 :: o2 =>
        let res1 := res0 ++ [⟨.REQUEST_BODY, r1⟩]
        if isImmediateResponse r1 then ⟨[hmsg, bmsg], .ok ⟨res1⟩, true⟩
        else trailersPhase req [hmsg, bmsg] res1 o2
    else trailersPhase req [hmsg] res0 o1

end Client

namespace Golden

/-- Insertion into a Go `map[string]string`: overwrite the existing key or
add a new entry. -/
def mapInsert (m : List (String × String)) (k v : String) : List (String × String) :=
  match m with
  | [] => [(k, v)]
  | (k0, v0) :: rest =>
    if k0 = k then (k0, v) :: rest else (k0, v0) :: mapInsert rest k v

/-- Build the Go map produced by ranging over a set-headers list and
inserting every entry whose `Header` is non-nil. -/
def buildMap (l : List HeaderValueOption) : List (String × String) :=
  l.foldl
    (fun m o =>
      match o.header with
      | some hv => mapInsert m hv.key hv.value
      | none => m)
    []

/-- `golden.convertEnvoyHeadersResponse` (the payload; `convertOne` wraps it
in the oneof as the Go code wraps it in `ExtProcExpectation_HeadersResponse`). -/
def convertEnvoyHeadersResponse (resp : Option CommonResponse) : HeadersExpectation :=
  match resp with
  | none => ⟨none, [], []⟩
  | some cr =>
    match cr.headerMutation with
    | none => ⟨none, [], []⟩
    | some hm => ⟨none, buildMap hm.setHeaders, hm.removeHeaders⟩

/-- `golden.convertEnvoyBodyResponse`. -/
def convertEnvoyBodyResponse (resp : Option CommonResponse) : BodyExpectation :=
  match resp with
  | none => ⟨"", false⟩
  | some cr =>
    ⟨BodyMutation.getBody cr.bodyMutation, BodyMutation.getClearBody cr.bodyMutation⟩

/-- `golden.convertEnvoyTrailersResponse`. -/
def convertEnvoyTrailersResponse (resp : TrailersResponseV3) : TrailersExpectation :=
  match resp.headerMutation with
  | none => ⟨[], []⟩
  | some hm => ⟨buildMap hm.setHeaders, hm.removeHeaders⟩

/-- `golden.convertEnvoyImmediateResponse`. -/
def convertEnvoyImmediateResponse (resp : ImmediateResponseV3) : ImmediateExpectation :=
  ⟨(match resp.status with
    | some s => s.code
    | none => 0),
   resp.body,
   (match resp.headers with
    | some hm => buildMap hm.setHeaders
    | none => []),
   resp.details,
   (match resp.grpcStatus with
    | some g => some ⟨g.status⟩
    | none => none)⟩

/-- One iteration of the loop in `golden.convertToExpectations`. -/
def convertOne (pr : PhaseResponse) : ExtProcExpectation :=
  { phase := pr.phase
    response :=
      match pr.response.response with
      | some (.requestHeaders r) => some (.headersResponse (convertEnvoyHeadersResponse r.response))
      | some (.responseHeaders r) => some (.headersResponse (convertEnvoyHeadersResponse r.response))
      | some (.requestBody r) => some (.bodyResponse (convertEnvoyBodyResponse r.response))
      | some (.responseBody r) => some (.bodyResponse (convertEnvoyBodyResponse r.response))
      | some (.requestTrailers r) => some (.trailersResponse (convertEnvoyTrailersResponse r))
      | some (.responseTrailers r) => some (.trailersResponse (convertEnvoyTrailersResponse r))
      | some (.immediateResponse r) => some (.immediateResponse (convertEnvoyImmediateResponse r))
      | none => none }

/-- `golden.convertToExpectations`. -/
def convertToExpectations (result : ProcessingResult) : List ExtProcExpectation :=
  result.responses.map convertOne

end Golden

namespace Runner

/-- `runner.TestResult` (wall-clock duration omitted; the error is the
message string, `none` for no error). -/
structure TestResult where
  name : String
  passed : Bool
  skipped : Bool
  error : Option String
  differences : List Difference
  unmatched : List ExtProcExpectation
deriving DecidableEq

/-- `runner.Results` (duration omitted). -/
structure Results where
  total : Nat
  passed : Nat
  failed : Nat
  skipped : Nat
  tests : List TestResult
deriving DecidableEq

/-- `Runner.recordResult`. -/
def recordResult (results : Results) (result : TestResult) : Results :=
  let results := { results with tests := results.tests ++ [result] }
  if result.skipped then { results with skipped := results.skipped + 1 }
  else if result.passed then { results with passed := results.passed + 1 }
  else { results with failed := results.failed + 1 }

/-- The fields of `extproctorv1.TestCase` that `runTest` reads
(`GoldenFile = ""` models an absent golden-file reference). -/
structure TestCase where
  name : String
  expectations : List ExtProcExpectation
  goldenFile : String
deriving DecidableEq

/-- The observable outcome of one `Runner.runTest` call: the produced test
result, whether the comparator was invoked, and whether a golden write was
attempted. -/
structure RunTestTrace where
  result : TestResult
  compareCalled : Bool
  writeCalled : Bool
deriving DecidableEq

/-- `Runner.getExpectations`: inline expectations win; otherwise read the
golden file (modelled by `goldenRead`, the outcome `golden.Read` would
produce for the resolved path); otherwise the empty list. -/
def getExpectations (tc : TestCase)
    (goldenRead : Except String (List ExtProcExpectation)) :
    Except String (List ExtProcExpectation) :=
  if tc.expectations.length > 0 then .ok tc.expectations
  else if tc.goldenFile ≠ "" then goldenRead
  else .ok []

/-- `Runner.runTest`.  `driver` is the outcome of `client.Process`,
`goldenRead` the outcome `golden.Read` would produce, and `writeOk` whether
`golden.Write` would succeed. -/
def runTest (updateGolden : Bool) (tc : TestCase)
    (driver : Except String ProcessingResult)
    (goldenRead : Except String (List ExtProcExpectation))
    (writeOk : Bool) : RunTestTrace :=
  match driver with
  | .error e => ⟨⟨tc.name, false, false, some e, [], []⟩, false, false⟩
  | .ok procResult =>
    match getExpectations tc goldenRead with
    | .error e => ⟨⟨tc.name, false, false, some e, [], []⟩, false, false⟩
    | .ok expectations =>
      if updateGolden ∧ tc.goldenFile ≠ "" then
        if writeOk then ⟨⟨tc.name, true, false, none, [], []⟩, false, true⟩
        else ⟨⟨tc.name, false, false, some "failed to write golden file", [], []⟩, false, true⟩
      else
        let cr := Comparator.Compare expectations procResult
        ⟨⟨tc.name, cr.passed, false, none, cr.differences, cr.unmatched⟩, true, false⟩

end Runner

/-- Two entry lists that denote the same Go `map[string]string`: one is a
permutation of the other and the keys are pairwise distinct (as they are in
any map). -/
def MapPerm (l1 l2 : List (String × String)) : Prop :=
  l1.Perm l2 ∧ (l1.map Prod.fst).Nodup

/-- `extproctorv1.HeaderMutation` expectations denoting the same value up to
map iteration order. -/
def hmExpEquiv (a b : HeaderMutationExp) : Prop :=
  MapPerm a.setHeaders b.setHeaders ∧ a.removeHeaders = b.removeHeaders

/-- Expectation response oneofs denoting the same value up to map iteration
order. -/
def respEquiv : Option ExpResponse → Option ExpResponse → Prop
  | some (.headersResponse a), some (.headersResponse b) =>
    (match a.commonResponse, b.commonResponse with
     | some ca, some cb =>
       (match ca.headerMutation, cb.headerMutation with
        | some ha, some hb => hmExpEquiv ha hb
        | none, none => True
        | _, _ => False)
     | none, none => True
     | _, _ => False)
    ∧ MapPerm a.setHeaders b.setHeaders ∧ a.removeHeaders = b.removeHeaders
  | some (.bodyResponse a), some (.bodyResponse b) => a = b
  | some (.trailersResponse a), some (.trailersResponse b) =>
    MapPerm a.setTrailers b.setTrailers ∧ a.removeTrailers = b.removeTrailers
  | some (.immediateResponse a), some (.immediateResponse b) =>
    a.statusCode = b.statusCode ∧ a.body = b.body ∧ MapPerm a.headers b.headers
      ∧ a.details = b.details ∧ a.grpcStatus = b.grpcStatus
  | none, none => True
  | _, _ => False

/-- Expectations denoting the same value up to map iteration order. -/
def expEquiv (a b : ExtProcExpectation) : Prop :=
  a.phase = b.phase ∧ respEquiv a.response b.response

/-- Matched pairs denoting the same value up to map iteration order: the
recorded expectations are equivalent and the matched response is the same. -/
def matchedEquiv (m1 m2 : MatchedExp) : Prop :=
  expEquiv m1.expectation m2.expectation ∧ m1.response = m2.response

/-- Keys of the non-nil entries of a set-headers list. -/
def hvoKeys (l : List HeaderValueOption) : List String :=
  l.filterMap (fun o => o.header.map (fun hv => hv.key))

/-- The (key, value) pairs of the non-nil entries of a set-headers list. -/
def hvoEntries (l : List HeaderValueOption) : List (String × String) :=
  l.filterMap (fun o => o.header.map (fun hv => (hv.key, hv.value)))

/-- Whether a possibly-nil header mutation has pairwise-distinct keys. -/
def hmNodupKeys : Option HeaderMutationV3 → Bool
  | none => true
  | some hm => decide (hvoKeys hm.setHeaders).Nodup

/-- Whether every set-headers list a response carries has pairwise-distinct
keys (true of any response whose mutations were built from maps). -/
def respNodupKeys (resp : ProcessingResponse) : Bool :=
  match resp.response with
  | some (.requestHeaders r) =>
    (match r.response with
     | some cr => hmNodupKeys cr.headerMutation
     | none => true)
  | some (.responseHeaders r) =>
    (match r.response with
     | some cr => hmNodupKeys cr.headerMutation
     | none => true)
  | some (.requestTrailers r) => hmNodupKeys r.headerMutation
  | some (.responseTrailers r) => hmNodupKeys r.headerMutation
  | some (.immediateResponse r) => hmNodupKeys r.headers
  | _ => true

/-- Whether every response of a result satisfies `respNodupKeys`. -/
def resultNodupKeys (r : ProcessingResult) : Bool :=
  r.responses.all (fun pr => respNodupKeys pr.response)

/-- A `HeaderValueOption` with a non-nil header. -/
def hv (k v : String) : HeaderValueOption := ⟨some ⟨k, v⟩⟩

/-- A REQUEST_HEADERS processing response carrying a header mutation with the
given set-headers list. -/
def hdrResp (l : List HeaderValueOption) : ProcessingResponse :=
  ⟨some (.requestHeaders ⟨some ⟨some ⟨l, []⟩, none⟩⟩)⟩

/-- A headers expectation for REQUEST_HEADERS with the given set-headers map. -/
def hdrExp (l : List (String × String)) : ExtProcExpectation :=
  ⟨.REQUEST_HEADERS, some (.headersResponse ⟨none, l, []⟩)⟩

/-- An immediate (short-circuiting) processing response. -/
def immResp (code : Int) (b : String) : ProcessingResponse :=
  ⟨some (.immediateResponse ⟨some ⟨code⟩, b, none, none, ""⟩)⟩

/-- A REQUEST_TRAILERS processing response with the given mutation. -/
def trlResp (hm : Option HeaderMutationV3) : ProcessingResponse :=
  ⟨some (.requestTrailers ⟨hm⟩)⟩

/-- A trailers expectation for REQUEST_TRAILERS. -/
def trlExp (st : List (String × String)) (rt : List String) : ExtProcExpectation :=
  ⟨.REQUEST_TRAILERS, some (.trailersResponse ⟨st, rt⟩)⟩

/-- A request with `sendBody` set but an empty body. -/
def reqEmptyBody : Client.HttpRequest :=
  ⟨"GET", "/", "", "", [], "", [], true, false⟩

/-- A request with `sendBody` set and a non-empty body. -/
def reqWithBody : Client.HttpRequest :=
  ⟨"POST", "/api/v1/users", "https", "example.org", [("content-type", "text/plain")],
   "hello", [], true, false⟩

/-- A request with both optional phases disabled. -/
def reqHeadersOnly : Client.HttpRequest :=
  ⟨"GET", "/api/v1/users", "", "", [], "", [], false, false⟩

end Extproctor

namespace Extproctor

namespace Comparator

theorem satExp_iff (result : ProcessingResult) (exp : ExtProcExpectation) :
    satExp result exp = true ↔
      ∃ pr ∈ result.responses, pr.phase = exp.phase ∧
        compareExpectation exp pr.response = [] := by
  unfold satExp
  rw [List.any_eq_true]
  constructor
  · rintro ⟨pr, hpr, hm⟩
    unfold matchesExp at hm
    rw [Bool.and_eq_true, decide_eq_true_eq, List.isEmpty_iff] at hm
    exact ⟨pr, hpr, hm.1, hm.2⟩
  · rintro ⟨pr, hpr, h1, h2⟩
    refine ⟨pr, hpr, ?_⟩
    unfold matchesExp
    rw [Bool.and_eq_true, decide_eq_true_eq, List.isEmpty_iff]
    exact ⟨h1, h2⟩

theorem scanResponses_snd_isSome (exp : ExtProcExpectation) :
    ∀ rs : List PhaseResponse,
      (scanResponses exp rs).2.isSome = rs.any (matchesExp exp)
  | [] => rfl
  | resp :: rest => by
    rw [List.any_cons]
    unfold scanResponses
    by_cases hp : resp.phase = exp.phase
    · by_cases he : (compareExpectation exp resp.response).isEmpty
      · simp [hp, he, matchesExp]
      · rw [if_pos hp, if_neg he]
        show (scanResponses exp rest).2.isSome = _
        rw [scanResponses_snd_isSome exp rest]
        simp [matchesExp, hp, he]
    · rw [if_neg hp]
      rw [scanResponses_snd_isSome exp rest]
      simp [matchesExp, hp]

theorem compare_foldl_closed (result : ProcessingResult) :
    ∀ (es : List ExtProcExpectation) (cr : ComparisonResult),
      es.foldl (compareStep result) cr =
        ⟨cr.passed && es.all (satExp result),
         cr.differences ++ es.flatMap (fun e => (scanResponses e result.responses).1),
         cr.matched ++ es.filterMap
           (fun e => ((scanResponses e result.responses).2).map (fun pr => ⟨e, pr⟩)),
         cr.unmatched ++ es.filter (fun e => !(satExp result e))⟩
  | [], cr => by simp
  | e :: es, cr => by
    have hsat : satExp result e = (scanResponses e result.responses).2.isSome := by
      rw [scanResponses_snd_isSome]; rfl
    rw [List.foldl_cons, compare_foldl_closed result es]
    cases hscan : (scanResponses e result.responses).2 with
    | some pr =>
      have hsat' : satExp result e = true := by rw [hsat, hscan]; rfl
      simp only [compareStep, hscan, List.all_cons, List.flatMap_cons, List.filterMap_cons,
        List.filter_cons, hsat']
      simp [List.append_assoc]
    | none =>
      have hsat' : satExp result e = false := by rw [hsat, hscan]; rfl
      simp only [compareStep, hscan, List.all_cons, List.flatMap_cons, List.filterMap_cons,
        List.filter_cons, hsat']
      simp [List.append_assoc]

theorem Compare_closed (es : List ExtProcExpectation) (result : ProcessingResult) :
    Compare es result =
      ⟨es.all (satExp result),
       es.flatMap (fun e => (scanResponses e result.responses).1),
       es.filterMap
         (fun e => ((scanResponses e result.responses).2).map (fun pr => ⟨e, pr⟩)),
       es.filter (fun e => !(satExp result e))⟩ := by
  unfold Compare
  rw [compare_foldl_closed]
  simp

end Comparator

end Extproctor

open Extproctor Extproctor.Comparator

/-- **C1.** For every list of expectations and every ProcessingResult, `Compare`
returns `Passed = true` iff every expectation matched some actual response of
the same phase with zero field differences; `Unmatched` contains exactly the
expectations for which no satisfying response was found; and for an empty
expectation list `Compare` returns `Passed = true`. -/
theorem C1_compare_passed_iff_every_expectation_matched
    (es : List ExtProcExpectation) (r : ProcessingResult) :
    ((Compare es r).passed = true ↔
      ∀ e ∈ es, ∃ pr ∈ r.responses, pr.phase = e.phase ∧
        compareExpectation e pr.response = [])
    ∧ (Compare es r).unmatched = es.filter
        (fun e => !(r.responses.any (matchesExp e)))
    ∧ (Compare [] r).passed = true := by
  refine ⟨?_, ?_, ?_⟩
  · rw [Compare_closed]
    simp only [List.all_eq_true]
    constructor
    · intro h e he
      exact (satExp_iff r e).mp (h e he)
    · intro h e he
      exact (satExp_iff r e).mpr (h e he)
  · rw [Compare_closed]
    rfl
  · rw [Compare_closed]
    rfl

theorem satExp_perm {r1 r2 : ProcessingResult} (h : r1.responses.Perm r2.responses)
    (e : ExtProcExpectation) : satExp r1 e = satExp r2 e := by
  unfold satExp
  rw [Bool.eq_iff_iff, List.any_eq_true, List.any_eq_true]
  constructor
  · rintro ⟨pr, hpr, hm⟩
    exact ⟨pr, h.mem_iff.mp hpr, hm⟩
  · rintro ⟨pr, hpr, hm⟩
    exact ⟨pr, h.mem_iff.mpr hpr, hm⟩

/-- **C8.** Permuting the actual responses (in particular any reordering that
preserves each element's phase) never changes the `Passed` value returned by
`Compare`. -/
theorem C8_passed_invariant_under_response_permutation
    (es : List ExtProcExpectation) (r1 r2 : ProcessingResult)
    (h : r1.responses.Perm r2.responses) :
    (Compare es r1).passed = (Compare es r2).passed := by
  rw [Compare_closed, Compare_closed]
  have hf : satExp r1 = satExp r2 := funext (satExp_perm h)
  show es.all (satExp r1) = es.all (satExp r2)
  rw [hf]

/-- Witness for C8 at a concrete input: swapping two REQUEST_HEADERS
responses leaves `Passed` unchanged. -/
theorem C8_witness :
    ([⟨.REQUEST_HEADERS, hdrResp []⟩, ⟨.REQUEST_HEADERS, hdrResp [hv "a" "1"]⟩] :
        List PhaseResponse).Perm
      [⟨.REQUEST_HEADERS, hdrResp [hv "a" "1"]⟩, ⟨.REQUEST_HEADERS, hdrResp []⟩]
    ∧ (Compare [hdrExp [("a", "1")]]
        ⟨[⟨.REQUEST_HEADERS, hdrResp []⟩, ⟨.REQUEST_HEADERS, hdrResp [hv "a" "1"]⟩]⟩).passed
      = (Compare [hdrExp [("a", "1")]]
        ⟨[⟨.REQUEST_HEADERS, hdrResp [hv "a" "1"]⟩, ⟨.REQUEST_HEADERS, hdrResp []⟩]⟩).passed :=
  ⟨List.Perm.swap _ _ _, C8_passed_invariant_under_response_permutation _ _ _
    (List.Perm.swap _ _ _)⟩

theorem scanResponses_no_same_phase (e : ExtProcExpectation) :
    ∀ rs : List PhaseResponse, (∀ pr ∈ rs, pr.phase ≠ e.phase) →
      scanResponses e rs = ([], none)
  | [], _ => rfl
  | resp :: rest, h => by
    unfold scanResponses
    rw [if_neg (h resp (List.mem_cons_self resp rest))]
    exact scanResponses_no_same_phase e rest (fun pr hpr => h pr (List.mem_cons_of_mem resp hpr))

/-- **C3 (counterexample).** An expectation whose phase has no actual
response at all is placed in `Unmatched`, but — contrary to the claim — no
difference whatsoever is recorded for it: `Differences` stays empty. -/
theorem C3_counterexample_no_type_difference_recorded :
    (Compare [hdrExp [("a", "b")]] ⟨[]⟩).unmatched = [hdrExp [("a", "b")]]
    ∧ (Compare [hdrExp [("a", "b")]] ⟨[]⟩).differences = [] := by
  exact ⟨rfl, rfl⟩

/-- **C3 (amended).** For every expectation whose phase has no actual
response of the same phase, `Compare` places that expectation in `Unmatched`
and records no difference for it (the "wrong response type" difference only
arises when a same-phase response of a different variant exists). -/
theorem C3_amended_unmatched_no_difference
    (es : List ExtProcExpectation) (r : ProcessingResult) (e : ExtProcExpectation)
    (he : e ∈ es) (hnone : ∀ pr ∈ r.responses, pr.phase ≠ e.phase) :
    e ∈ (Compare es r).unmatched ∧ (scanResponses e r.responses).1 = [] := by
  have hscan : scanResponses e r.responses = ([], none) :=
    scanResponses_no_same_phase e r.responses hnone
  constructor
  · rw [Compare_closed]
    apply List.mem_filter.mpr
    refine ⟨he, ?_⟩
    have hsat : satExp r e = false := by
      unfold satExp
      rw [← scanResponses_snd_isSome e r.responses, hscan]
      rfl
    rw [hsat]
    rfl
  · rw [hscan]

/-- Witness for C3 (amended) at a concrete input. -/
theorem C3_amended_witness :
    hdrExp [("a", "b")] ∈ (Compare [hdrExp [("a", "b")]] ⟨[]⟩).unmatched
    ∧ (scanResponses (hdrExp [("a", "b")]) ([] : List PhaseResponse)).1 = [] :=
  C3_amended_unmatched_no_difference [hdrExp [("a", "b")]] ⟨[]⟩ _
    (List.mem_singleton.mpr rfl) (by intro pr hpr; cases hpr)

/-- **C4 (counterexample).** A trailers expectation that asks for the key
`x` to be removed, compared against a same-phase trailers response whose
mutation removes nothing, yields zero differences and matches — the
remove-trailers rule claimed by the spec is not applied at all. -/
theorem C4_counterexample_remove_trailers_never_checked :
    compareTrailersResponse .REQUEST_TRAILERS ⟨[], ["x"]⟩ (trlResp (some ⟨[], []⟩)) = []
    ∧ (Compare [trlExp [] ["x"]]
        ⟨[⟨.REQUEST_TRAILERS, trlResp (some ⟨[], []⟩)⟩]⟩).passed = true := by
  exact ⟨rfl, rfl⟩

/-- **C4 (amended).** The trailers comparison checks only the set-trailers
map, and only when the actual trailers mutation is present: the
remove-trailers list of the expectation never influences the result; when
the actual mutation is nil no difference is recorded; when it is present
each set key is checked exactly like the headers set rule (same per-key
verdict, only the diff path label differs). -/
theorem C4_amended_trailers_set_only
    (phase : ProcessingPhase) (st : List (String × String)) (rt1 rt2 : List String)
    (tr : TrailersResponseV3) :
    compareTrailersResponse phase ⟨st, rt1⟩ ⟨some (.requestTrailers tr)⟩
      = compareTrailersResponse phase ⟨st, rt2⟩ ⟨some (.requestTrailers tr)⟩
    ∧ (tr.headerMutation = none →
        compareTrailersResponse phase ⟨st, rt1⟩ ⟨some (.requestTrailers tr)⟩ = [])
    ∧ (∀ hm, tr.headerMutation = some hm →
        compareTrailersResponse phase ⟨st, rt1⟩ ⟨some (.requestTrailers tr)⟩
          = if st.length > 0 then st.filterMap (setTrailersKeyDiff phase hm.setHeaders)
            else [])
    ∧ (∀ (shl : List HeaderValueOption) (kv : String × String),
        (setTrailersKeyDiff phase shl kv).map (fun d => (d.phase, d.expected, d.actual))
          = (setHeadersKeyDiff phase shl kv).map (fun d => (d.phase, d.expected, d.actual))) := by
  refine ⟨rfl, ?_, ?_, ?_⟩
  · intro h
    unfold compareTrailersResponse
    simp only [ProcessingResponse.getRequestTrailers, Option.orElse]
    rw [h]
    by_cases hst : st.length > 0 <;> simp [hst]
  · intro hm h
    unfold compareTrailersResponse
    simp only [ProcessingResponse.getRequestTrailers, Option.orElse]
    rw [h]
  · intro shl kv
    unfold setTrailersKeyDiff setHeadersKeyDiff
    cases h : findHeaderValue kv.1 shl with
    | none => simp
    | some hval =>
      by_cases hvv : hval.value = kv.2
      · simp [hvv]
      · simp [hvv]

/-- Witness for C4 (amended) at a concrete input. -/
theorem C4_amended_witness :
    compareTrailersResponse .REQUEST_TRAILERS ⟨[("k", "v")], ["x"]⟩
        ⟨some (.requestTrailers ⟨some ⟨[hv "k" "v"], []⟩⟩)⟩
      = if ([("k", "v")] : List (String × String)).length > 0 then
          [("k", "v")].filterMap (setTrailersKeyDiff .REQUEST_TRAILERS [hv "k" "v"])
        else [] :=
  (C4_amended_trailers_set_only .REQUEST_TRAILERS [("k", "v")] ["x"] [] _).2.2.1
    ⟨[hv "k" "v"], []⟩ rfl

/-- **C2.** For a request with `sendBody = true` and a non-empty body, if the
REQUEST_HEADERS response is an immediate (short-circuiting) response, then
`Process` returns a result with exactly one PhaseResponse (phase
REQUEST_HEADERS), sends no further phase messages, closes the stream, and
returns no error. -/
theorem C2_driver_early_exit_on_immediate_headers_response
    (req : Client.HttpRequest) (r0 : ProcessingResponse) (rest : List ProcessingResponse)
    (hb : req.processRequestBody = true) (hbody : req.body ≠ "")
    (himm : Client.isImmediateResponse r0 = true) :
    Client.Process req (r0 :: rest) =
      ⟨[Client.ProcessingRequestMsg.requestHeaders (Client.buildRequestHeaders req)],
       .ok ⟨[⟨.REQUEST_HEADERS, r0⟩]⟩, true⟩ := by
  unfold Client.Process
  simp [himm]

/-- Witness for C2 at a concrete input. -/
theorem C2_witness :
    reqWithBody.processRequestBody = true ∧ reqWithBody.body ≠ ""
    ∧ Client.isImmediateResponse (immResp 403 "forbidden") = true
    ∧ Client.Process reqWithBody [immResp 403 "forbidden"] =
      ⟨[Client.ProcessingRequestMsg.requestHeaders (Client.buildRequestHeaders reqWithBody)],
       .ok ⟨[⟨.REQUEST_HEADERS, immResp 403 "forbidden"⟩]⟩, true⟩ :=
  ⟨rfl, by decide, rfl,
    C2_driver_early_exit_on_immediate_headers_response reqWithBody _ [] rfl (by decide) rfl⟩

/-- **C6 (counterexample).** With `sendBody = true` but an empty body (and
trailers disabled), no message follows REQUEST_HEADERS on the stream, yet
the REQUEST_HEADERS message carries `endOfStream = false` — refuting the
claimed "end-of-stream iff no subsequent message will be sent". -/
theorem C6_counterexample_eos_false_without_followup :
    (Client.Process reqEmptyBody [hdrResp []]).sent =
      [Client.ProcessingRequestMsg.requestHeaders (Client.buildRequestHeaders reqEmptyBody)]
    ∧ (Client.buildRequestHeaders reqEmptyBody).endOfStream = false := by
  exact ⟨rfl, rfl⟩

/-- **C6 (amended).** The end-of-stream flags are computed from the
`sendBody`/`sendTrailers` flags alone: REQUEST_HEADERS carries end-of-stream
true iff both flags are unset (even when an empty body, empty trailers, or
an immediate response means no later message is actually sent), and
REQUEST_BODY carries end-of-stream true iff the `sendTrailers` flag is
unset.  When the headers end-of-stream flag is true, no message ever
follows REQUEST_HEADERS. -/
theorem C6_amended_eos_from_flags
    (req : Client.HttpRequest) (oracle : List ProcessingResponse) :
    (Client.buildRequestHeaders req).endOfStream
      = (!req.processRequestBody && !req.processRequestTrailers)
    ∧ (Client.buildRequestBody req).endOfStream = !req.processRequestTrailers
    ∧ ((Client.buildRequestHeaders req).endOfStream = true →
        (Client.Process req oracle).sent =
          [Client.ProcessingRequestMsg.requestHeaders (Client.buildRequestHeaders req)]) := by
  refine ⟨rfl, rfl, ?_⟩
  intro heos
  have hflags : req.processRequestBody = false ∧ req.processRequestTrailers = false := by
    have : (!req.processRequestBody && !req.processRequestTrailers) = true := heos
    rw [Bool.and_eq_true, Bool.not_eq_true', Bool.not_eq_true'] at this
    exact this
  unfold Client.Process
  cases oracle with
  | nil => rfl
  | cons r0 o1 =>
    by_cases himm : Client.isImmediateResponse r0 = true
    · simp [himm]
    · simp only [Bool.not_eq_true] at himm
      simp [himm, hflags.1, hflags.2, Client.trailersPhase]

/-- Witness for C6 (amended) at a concrete input. -/
theorem C6_amended_witness :
    (Client.Process reqHeadersOnly []).sent =
      [Client.ProcessingRequestMsg.requestHeaders (Client.buildRequestHeaders reqHeadersOnly)] :=
  (C6_amended_eos_from_flags reqHeadersOnly []).2.2 rfl

theorem recordResult_inv (rs : Runner.Results) (tr : Runner.TestResult)
    (h : rs.passed + rs.failed + rs.skipped = rs.tests.length) :
    (Runner.recordResult rs tr).passed + (Runner.recordResult rs tr).failed
      + (Runner.recordResult rs tr).skipped = (Runner.recordResult rs tr).tests.length := by
  unfold Runner.recordResult
  by_cases hs : tr.skipped = true <;> by_cases hp : tr.passed = true <;>
    simp [hs, hp] <;> omega

theorem foldl_recordResult_inv :
    ∀ (l : List Runner.TestResult) (rs : Runner.Results),
      rs.passed + rs.failed + rs.skipped = rs.tests.length →
      (l.foldl Runner.recordResult rs).passed + (l.foldl Runner.recordResult rs).failed
        + (l.foldl Runner.recordResult rs).skipped
        = (l.foldl Runner.recordResult rs).tests.length
  | [], _, h => h
  | t :: l, rs, h => foldl_recordResult_inv l _ (recordResult_inv rs t h)

/-- **C10.** Every `recordResult` call appends exactly one TestResult and
increments exactly one of the Passed/Failed/Skipped counters (Skipped when
skipped, else Passed when passed, else Failed); hence after any sequence of
recordings starting from a state satisfying it, Passed + Failed + Skipped
equals the length of the Tests list. -/
theorem C10_record_result_counters
    (rs : Runner.Results) (tr : Runner.TestResult) (l : List Runner.TestResult)
    (hinv : rs.passed + rs.failed + rs.skipped = rs.tests.length) :
    (Runner.recordResult rs tr).tests = rs.tests ++ [tr]
    ∧ (Runner.recordResult rs tr).skipped
        = rs.skipped + (if tr.skipped then 1 else 0)
    ∧ (Runner.recordResult rs tr).passed
        = rs.passed + (if !tr.skipped && tr.passed then 1 else 0)
    ∧ (Runner.recordResult rs tr).failed
        = rs.failed + (if !tr.skipped && !tr.passed then 1 else 0)
    ∧ (l.foldl Runner.recordResult rs).passed + (l.foldl Runner.recordResult rs).failed
        + (l.foldl Runner.recordResult rs).skipped
        = (l.foldl Runner.recordResult rs).tests.length := by
  refine ⟨?_, ?_, ?_, ?_, foldl_recordResult_inv l rs hinv⟩ <;>
    · unfold Runner.recordResult
      by_cases hs : tr.skipped = true <;> by_cases hp : tr.passed = true <;> simp [hs, hp]

/-- Witness for C10 at a concrete input. -/
theorem C10_witness :
    (Runner.recordResult ⟨0, 0, 0, 0, []⟩ ⟨"t", true, false, none, [], []⟩).tests
        = [⟨"t", true, false, none, [], []⟩]
    ∧ (Runner.recordResult ⟨0, 0, 0, 0, []⟩ ⟨"t", true, false, none, [], []⟩).passed = 1 := by
  have h := C10_record_result_counters ⟨0, 0, 0, 0, []⟩ ⟨"t", true, false, none, [], []⟩ []
    (by decide)
  exact ⟨by rw [h.1]; rfl, by rw [h.2.2.1]; rfl⟩

/-- **C5 (code evidence).** In snapshot-update mode, when the test case has
no inline expectations and reading the (yet to be written) golden file
fails, `runTest` returns the read error without ever calling the comparator
— and, contrary to the claim and to the documented "automatic golden file
generation", without ever attempting the golden write, and the test is not
reported as passed even though the write would have succeeded. -/
theorem C5_update_golden_read_failure_skips_write :
    Runner.runTest true ⟨"t", [], "golden.textproto"⟩
        (.ok ⟨[]⟩) (.error "failed to read golden file") true
      = ⟨⟨"t", false, false, some "failed to read golden file", [], []⟩, false, false⟩ := rfl

theorem hvoKeys_eq_entries_keys (l : List HeaderValueOption) :
    hvoKeys l = (hvoEntries l).map Prod.fst := by
  induction l with
  | nil => rfl
  | cons o os ih =>
    cases ho : o.header <;> simp [hvoKeys, hvoEntries, ho] at ih ⊢ <;>
      simpa [hvoKeys, hvoEntries] using ih

theorem mapInsert_of_not_mem (k v : String) :
    ∀ m : List (String × String), k ∉ m.map Prod.fst →
      Golden.mapInsert m k v = m ++ [(k, v)]
  | [], _ => rfl
  | (k0, v0) :: rest, h => by
    have hk : ¬ k0 = k := by
      intro he
      exact h (by rw [he]; exact List.mem_cons_self _ _)
    unfold Golden.mapInsert
    rw [if_neg hk, mapInsert_of_not_mem k v rest
      (fun hm => h (List.mem_cons_of_mem _ hm))]
    rfl

theorem buildMap_go :
    ∀ (l : List HeaderValueOption) (acc : List (String × String)),
      (acc.map Prod.fst ++ hvoKeys l).Nodup →
      l.foldl
        (fun m o =>
          match o.header with
          | some hv => Golden.mapInsert m hv.key hv.value
          | none => m)
        acc
        = acc ++ hvoEntries l
  | [], acc, _ => by simp [hvoEntries]
  | o :: os, acc, hnd => by
    cases ho : o.header with
    | none =>
      have hkeys : hvoKeys (o :: os) = hvoKeys os := by simp [hvoKeys, ho]
      rw [hkeys] at hnd
      rw [List.foldl_cons]
      have hstep :
          (match o.header with
           | some hv => Golden.mapInsert acc hv.key hv.value
           | none => acc) = acc := by rw [ho]
      rw [hstep, buildMap_go os acc hnd]
      simp [hvoEntries, ho]
    | some hvv =>
      have hkeys : hvoKeys (o :: os) = hvv.key :: hvoKeys os := by simp [hvoKeys, ho]
      rw [hkeys] at hnd
      have hnotmem : hvv.key ∉ acc.map Prod.fst := by
        intro hin
        have hdisj := (List.nodup_append.mp hnd).2.2
        exact hdisj hin (List.mem_cons_self _ _)
      have hstep :
          (match o.header with
           | some hv => Golden.mapInsert acc hv.key hv.value
           | none => acc) = acc ++ [(hvv.key, hvv.value)] := by
        rw [ho]
        exact mapInsert_of_not_mem _ _ acc hnotmem
      rw [List.foldl_cons, hstep]
      have hnd' :
          ((acc ++ [(hvv.key, hvv.value)]).map Prod.fst ++ hvoKeys os).Nodup := by
        rw [List.map_append, List.append_assoc]
        simpa using hnd
      rw [buildMap_go os _ hnd']
      simp [hvoEntries, ho]

theorem buildMap_eq_entries (l : List HeaderValueOption)
    (hnd : (hvoKeys l).Nodup) : Golden.buildMap l = hvoEntries l := by
  unfold Golden.buildMap
  have := buildMap_go l [] (by simpa using hnd)
  simpa using this

theorem findHeaderValue_of_mem :
    ∀ (l : List HeaderValueOption) (k v : String),
      (hvoKeys l).Nodup → (k, v) ∈ hvoEntries l →
      Comparator.findHeaderValue k l = some ⟨k, v⟩
  | [], k, v, _, hm => absurd hm (by simp [hvoEntries])
  | o :: os, k, v, hnd, hm => by
    cases ho : o.header with
    | none =>
      have hkeys : hvoKeys (o :: os) = hvoKeys os := by simp [hvoKeys, ho]
      have hent : hvoEntries (o :: os) = hvoEntries os := by simp [hvoEntries, ho]
      rw [hkeys] at hnd
      rw [hent] at hm
      unfold Comparator.findHeaderValue
      rw [ho]
      exact findHeaderValue_of_mem os k v hnd hm
    | some hvv =>
      have hkeys : hvoKeys (o :: os) = hvv.key :: hvoKeys os := by simp [hvoKeys, ho]
      have hent : hvoEntries (o :: os) = (hvv.key, hvv.value) :: hvoEntries os := by
        simp [hvoEntries, ho]
      rw [hkeys] at hnd
      rw [hent] at hm
      unfold Comparator.findHeaderValue
      rw [ho]
      show (if hvv.key = k then some hvv else Comparator.findHeaderValue k os)
        = some ⟨k, v⟩
      by_cases hk : hvv.key = k
      · rw [if_pos hk]
        rcases List.mem_cons.mp hm with hhead | htail
        · have h1 : hvv.key = k := congrArg Prod.fst hhead.symm
          have h2 : hvv.value = v := congrArg Prod.snd hhead.symm
          rw [show hvv = (⟨k, v⟩ : HeaderValue) from by
            cases hvv; simp at h1 h2; rw [h1, h2]]
        · exfalso
          have hkmem : k ∈ (hvoEntries os).map Prod.fst := List.mem_map_of_mem _ htail
          rw [← hvoKeys_eq_entries_keys] at hkmem
          rw [hk] at hnd
          exact (List.nodup_cons.mp hnd).1 hkmem
      · rw [if_neg hk]
        rcases List.mem_cons.mp hm with hhead | htail
        · exact absurd (congrArg Prod.fst hhead.symm) hk
        · exact findHeaderValue_of_mem os k v (List.nodup_cons.mp hnd).2 htail

theorem setHeadersKeyDiff_none_of_mem (ph : ProcessingPhase)
    (shl : List HeaderValueOption) (kv : String × String)
    (hnd : (hvoKeys shl).Nodup) (hm : kv ∈ hvoEntries shl) :
    Comparator.setHeadersKeyDiff ph shl kv = none := by
  unfold Comparator.setHeadersKeyDiff
  rw [findHeaderValue_of_mem shl kv.1 kv.2 hnd (by simpa using hm)]
  simp

theorem setTrailersKeyDiff_none_of_mem (ph : ProcessingPhase)
    (shl : List HeaderValueOption) (kv : String × String)
    (hnd : (hvoKeys shl).Nodup) (hm : kv ∈ hvoEntries shl) :
    Comparator.setTrailersKeyDiff ph shl kv = none := by
  unfold Comparator.setTrailersKeyDiff
  rw [findHeaderValue_of_mem shl kv.1 kv.2 hnd (by simpa using hm)]
  simp

theorem immHeaderKeyDiff_none_of_mem (ph : ProcessingPhase)
    (shl : List HeaderValueOption) (kv : String × String)
    (hnd : (hvoKeys shl).Nodup) (hm : kv ∈ hvoEntries shl) :
    Comparator.immHeaderKeyDiff ph shl kv = none := by
  unfold Comparator.immHeaderKeyDiff
  rw [findHeaderValue_of_mem shl kv.1 kv.2 hnd (by simpa using hm)]
  simp

theorem removeHeadersKeyDiff_none_of_mem (ph : ProcessingPhase)
    (rhl : List String) (k : String) (hm : k ∈ rhl) :
    Comparator.removeHeadersKeyDiff ph rhl k = none := by
  unfold Comparator.removeHeadersKeyDiff
  rw [if_pos (List.elem_iff.mpr hm)]

theorem compareHeadersResponse_convert (ph : ProcessingPhase) (hr : HeadersResponseV3)
    (resp : ProcessingResponse)
    (hget : resp.getRequestHeaders.orElse (fun _ => resp.getResponseHeaders) = some hr)
    (hnd : (match hr.response with
            | some cr => hmNodupKeys cr.headerMutation
            | none => true) = true) :
    compareHeadersResponse ph (Golden.convertEnvoyHeadersResponse hr.response) resp = [] := by
  simp only [compareHeadersResponse, hget]
  cases hcr : hr.response with
  | none => rfl
  | some cr =>
    cases hhm : cr.headerMutation with
    | none => simp [Golden.convertEnvoyHeadersResponse, hhm]
    | some hm =>
      have hnd2 : hmNodupKeys cr.headerMutation = true := by
        rw [hcr] at hnd
        exact hnd
      rw [hhm] at hnd2
      have hnd' : (hvoKeys hm.setHeaders).Nodup := of_decide_eq_true hnd2
      have hbm : Golden.buildMap hm.setHeaders = hvoEntries hm.setHeaders :=
        buildMap_eq_entries _ hnd'
      have hset : compareSetHeaders ph (Golden.buildMap hm.setHeaders) (some cr) = [] := by
        simp only [compareSetHeaders, hhm, hbm]
        rw [List.filterMap_eq_nil_iff]
        intro kv hkv
        exact setHeadersKeyDiff_none_of_mem ph hm.setHeaders kv hnd' hkv
      have hrem : compareRemoveHeaders ph hm.removeHeaders (some cr) = [] := by
        simp only [compareRemoveHeaders, hhm]
        rw [List.filterMap_eq_nil_iff]
        intro k hk
        exact removeHeadersKeyDiff_none_of_mem ph hm.removeHeaders k hk
      simp only [Golden.convertEnvoyHeadersResponse, hhm]
      by_cases hsl : (Golden.buildMap hm.setHeaders).length > 0 <;>
        by_cases hrl : hm.removeHeaders.length > 0 <;>
          simp [hsl, hrl, hset, hrem]

theorem compareBodyResponse_convert (ph : ProcessingPhase) (br : BodyResponseV3)
    (resp : ProcessingResponse)
    (hget : resp.getRequestBody.orElse (fun _ => resp.getResponseBody) = some br) :
    compareBodyResponse ph (Golden.convertEnvoyBodyResponse br.response) resp = [] := by
  simp only [compareBodyResponse, hget]
  cases hcr : br.response with
  | none => rfl
  | some cr =>
    cases hbm : cr.bodyMutation with
    | none => simp [Golden.convertEnvoyBodyResponse, hbm, BodyMutation.getBody,
        BodyMutation.getClearBody]
    | some bm =>
      cases bm with
      | bodyMut b =>
        simp only [Golden.convertEnvoyBodyResponse, hbm, BodyMutation.getBody,
          BodyMutation.getClearBody]
        by_cases hb : b.length > 0 <;> simp [hb, hbm, BodyMutation.getBody]
      | clearBodyMut c =>
        cases c <;>
          simp [Golden.convertEnvoyBodyResponse, hbm, BodyMutation.getBody,
            BodyMutation.getClearBody]

theorem compareTrailersResponse_convert (ph : ProcessingPhase) (tr : TrailersResponseV3)
    (resp : ProcessingResponse)
    (hget : resp.getRequestTrailers.orElse (fun _ => resp.getResponseTrailers) = some tr)
    (hnd : hmNodupKeys tr.headerMutation = true) :
    compareTrailersResponse ph (Golden.convertEnvoyTrailersResponse tr) resp = [] := by
  simp only [compareTrailersResponse, hget]
  cases hhm : tr.headerMutation with
  | none => simp [Golden.convertEnvoyTrailersResponse, hhm]
  | some hm =>
    have hnd2 : hmNodupKeys tr.headerMutation = true := hnd
    rw [hhm] at hnd2
    have hnd' : (hvoKeys hm.setHeaders).Nodup := of_decide_eq_true hnd2
    have hbm : Golden.buildMap hm.setHeaders = hvoEntries hm.setHeaders :=
      buildMap_eq_entries _ hnd'
    simp only [Golden.convertEnvoyTrailersResponse, hhm]
    by_cases hsl : (Golden.buildMap hm.setHeaders).length > 0
    · rw [if_pos hsl, hbm, List.filterMap_eq_nil_iff]
      intro kv hkv
      exact setTrailersKeyDiff_none_of_mem ph hm.setHeaders kv hnd' hkv
    · rw [if_neg hsl]

theorem compareImmediateResponse_convert (ph : ProcessingPhase) (ir : ImmediateResponseV3)
    (resp : ProcessingResponse)
    (hget : resp.getImmediateResponse = some ir)
    (hnd : hmNodupKeys ir.headers = true) :
    compareImmediateResponse ph (Golden.convertEnvoyImmediateResponse ir) resp = [] := by
  simp only [compareImmediateResponse, hget]
  have hstatus :
      (if (Golden.convertEnvoyImmediateResponse ir).statusCode > 0 then
         let actualStatus : Int :=
           match ir.status with
           | some s => s.code
           | none => 0
         if actualStatus ≠ (Golden.convertEnvoyImmediateResponse ir).statusCode then
           [⟨ph, "immediate_response.status_code",
             toString (Golden.convertEnvoyImmediateResponse ir).statusCode,
             toString actualStatus⟩]
         else []
       else ([] : List Difference)) = [] := by
    cases hst : ir.status with
    | none => simp [Golden.convertEnvoyImmediateResponse, hst]
    | some s =>
      by_cases hpos : s.code > 0 <;>
        simp [Golden.convertEnvoyImmediateResponse, hst, hpos]
  have hbody :
      (if (Golden.convertEnvoyImmediateResponse ir).body.length > 0 then
         if ir.body ≠ (Golden.convertEnvoyImmediateResponse ir).body then
           [⟨ph, "immediate_response.body",
             (Golden.convertEnvoyImmediateResponse ir).body, ir.body⟩]
         else []
       else ([] : List Difference)) = [] := by
    by_cases hb : ir.body.length > 0 <;>
      simp [Golden.convertEnvoyImmediateResponse, hb]
  have hhdrs :
      (if (Golden.convertEnvoyImmediateResponse ir).headers.length > 0 then
         match ir.headers with
         | some hm => (Golden.convertEnvoyImmediateResponse ir).headers.filterMap
             (Comparator.immHeaderKeyDiff ph hm.setHeaders)
         | none => []
       else ([] : List Difference)) = [] := by
    cases hh : ir.headers with
    | none => simp [Golden.convertEnvoyImmediateResponse, hh]
    | some hm =>
      have hnd2 : hmNodupKeys ir.headers = true := hnd
      rw [hh] at hnd2
      have hnd' : (hvoKeys hm.setHeaders).Nodup := of_decide_eq_true hnd2
      have hbm : Golden.buildMap hm.setHeaders = hvoEntries hm.setHeaders :=
        buildMap_eq_entries _ hnd'
      by_cases hl : (Golden.convertEnvoyImmediateResponse ir).headers.length > 0
      · rw [if_pos hl]
        simp only [Golden.convertEnvoyImmediateResponse, hh, hbm]
        rw [List.filterMap_eq_nil_iff]
        intro kv hkv
        exact immHeaderKeyDiff_none_of_mem ph hm.setHeaders kv hnd' hkv
      · rw [if_neg hl]
  simp [hstatus, hbody, hhdrs]
  exact ⟨fun _ => rfl, fun _ => rfl⟩

theorem compareExpectation_convertOne (pr : PhaseResponse)
    (hnd : respNodupKeys pr.response = true) :
    compareExpectation (Golden.convertOne pr) pr.response = [] := by
  cases hv0 : pr.response.response with
  | none =>
    simp [compareExpectation, Golden.convertOne, hv0]
  | some v =>
    cases v with
    | requestHeaders hr =>
      simp only [compareExpectation, Golden.convertOne, hv0]
      apply compareHeadersResponse_convert
      · simp [ProcessingResponse.getRequestHeaders, hv0, Option.orElse]
      · unfold respNodupKeys at hnd
        rw [hv0] at hnd
        exact hnd
    | responseHeaders hr =>
      simp only [compareExpectation, Golden.convertOne, hv0]
      apply compareHeadersResponse_convert
      · simp [ProcessingResponse.getRequestHeaders, ProcessingResponse.getResponseHeaders,
          hv0, Option.orElse]
      · unfold respNodupKeys at hnd
        rw [hv0] at hnd
        exact hnd
    | requestBody br =>
      simp only [compareExpectation, Golden.convertOne, hv0]
      apply compareBodyResponse_convert
      simp [ProcessingResponse.getRequestBody, hv0, Option.orElse]
    | responseBody br =>
      simp only [compareExpectation, Golden.convertOne, hv0]
      apply compareBodyResponse_convert
      simp [ProcessingResponse.getRequestBody, ProcessingResponse.getResponseBody,
        hv0, Option.orElse]
    | requestTrailers tr =>
      simp only [compareExpectation, Golden.convertOne, hv0]
      apply compareTrailersResponse_convert
      · simp [ProcessingResponse.getRequestTrailers, hv0, Option.orElse]
      · unfold respNodupKeys at hnd
        rw [hv0] at hnd
        exact hnd
    | responseTrailers tr =>
      simp only [compareExpectation, Golden.convertOne, hv0]
      apply compareTrailersResponse_convert
      · simp [ProcessingResponse.getRequestTrailers, ProcessingResponse.getResponseTrailers,
          hv0, Option.orElse]
      · unfold respNodupKeys at hnd
        rw [hv0] at hnd
        exact hnd
    | immediateResponse ir =>
      simp only [compareExpectation, Golden.convertOne, hv0]
      apply compareImmediateResponse_convert
      · simp [ProcessingResponse.getImmediateResponse, hv0]
      · unfold respNodupKeys at hnd
        rw [hv0] at hnd
        exact hnd

/-- **C9 (counterexample).** A response whose header mutation sets the same
key twice with different values does not match the expectations produced
from it by the golden-file conversion: the conversion's map keeps the last
value, while the comparison reads the first occurrence. -/
theorem C9_counterexample_duplicate_set_header_keys :
    (Compare
        (Golden.convertToExpectations
          ⟨[⟨.REQUEST_HEADERS, hdrResp [hv "a" "1", hv "a" "2"]⟩]⟩)
        ⟨[⟨.REQUEST_HEADERS, hdrResp [hv "a" "1", hv "a" "2"]⟩]⟩).passed = false := by
  decide

/-- **C9 (amended).** For every ProcessingResult in which no set-headers list
(header mutation, trailers mutation, or immediate-response headers) sets the
same key twice, converting the result to expectations via the golden-file
conversion and comparing those expectations against the result itself yields
`Passed = true` with empty `Unmatched`. -/
theorem C9_amended_golden_roundtrip (r : ProcessingResult)
    (hnd : resultNodupKeys r = true) :
    (Compare (Golden.convertToExpectations r) r).passed = true
    ∧ (Compare (Golden.convertToExpectations r) r).unmatched = [] := by
  have hall : ∀ e ∈ Golden.convertToExpectations r, satExp r e = true := by
    intro e he
    obtain ⟨pr, hpr, rfl⟩ := List.mem_map.mp he
    rw [satExp_iff]
    refine ⟨pr, hpr, rfl, ?_⟩
    apply compareExpectation_convertOne
    unfold resultNodupKeys at hnd
    exact List.all_eq_true.mp hnd pr hpr
  constructor
  · rw [Compare_closed]
    exact List.all_eq_true.mpr hall
  · rw [Compare_closed]
    rw [List.filter_eq_nil_iff]
    intro e he
    rw [hall e he]
    simp

/-- Witness for C9 (amended) at a concrete input. -/
theorem C9_amended_witness :
    resultNodupKeys ⟨[⟨.REQUEST_HEADERS, hdrResp [hv "a" "1"]⟩]⟩ = true
    ∧ (Compare
        (Golden.convertToExpectations ⟨[⟨.REQUEST_HEADERS, hdrResp [hv "a" "1"]⟩]⟩)
        ⟨[⟨.REQUEST_HEADERS, hdrResp [hv "a" "1"]⟩]⟩).passed = true :=
  ⟨by decide,
   (C9_amended_golden_roundtrip ⟨[⟨.REQUEST_HEADERS, hdrResp [hv "a" "1"]⟩]⟩ (by decide)).1⟩

/-- **C7 (counterexample).** A Go map iterates in an unspecified order, so
the same expectation map can reach `Compare` in either entry order; the two
orders are exhibited by permuted association lists denoting one and the same
map.  On such identical inputs the `Differences` lists of two calls can
differ in order, refuting bit-identical results. -/
theorem C7_counterexample_map_iteration_order :
    ([("a", "1"), ("b", "2")] : List (String × String)).Perm [("b", "2"), ("a", "1")]
    ∧ (Compare [hdrExp [("a", "1"), ("b", "2")]]
        ⟨[⟨.REQUEST_HEADERS, hdrResp []⟩]⟩).differences
      ≠ (Compare [hdrExp [("b", "2"), ("a", "1")]]
        ⟨[⟨.REQUEST_HEADERS, hdrResp []⟩]⟩).differences := by
  exact ⟨by decide, by decide⟩

theorem sortByKey_eq_of_mapPerm {l1 l2 : List (String × String)} (h : MapPerm l1 l2) :
    sortByKey l1 = sortByKey l2 := by
  haveI htot : IsTotal (String × String) keyLE := ⟨fun a b => le_total a.1 b.1⟩
  haveI htr : IsTrans (String × String) keyLE := ⟨fun a b c h1 h2 => le_trans h1 h2⟩
  have hperm : l1.Perm l2 := h.1
  have hnd1 : (l1.map Prod.fst).Nodup := h.2
  have hnd2 : (l2.map Prod.fst).Nodup := ((hperm.map Prod.fst).nodup_iff).mp hnd1
  have hp1 : (sortByKey l1).Perm l1 := List.perm_insertionSort keyLE l1
  have hp2 : (sortByKey l2).Perm l2 := List.perm_insertionSort keyLE l2
  have hsp : (sortByKey l1).Perm (sortByKey l2) := hp1.trans (hperm.trans hp2.symm)
  have hs1 : (sortByKey l1).Sorted keyLE := List.sorted_insertionSort keyLE l1
  have hs2 : (sortByKey l2).Sorted keyLE := List.sorted_insertionSort keyLE l2
  have hndk1 : ((sortByKey l1).map Prod.fst).Nodup := ((hp1.map Prod.fst).nodup_iff).mpr hnd1
  have hndk2 : ((sortByKey l2).map Prod.fst).Nodup := ((hp2.map Prod.fst).nodup_iff).mpr hnd2
  have hne1 : (sortByKey l1).Pairwise (fun a b => a.1 ≠ b.1) :=
    (List.pairwise_map.mp hndk1)
  have hne2 : (sortByKey l2).Pairwise (fun a b => a.1 ≠ b.1) :=
    (List.pairwise_map.mp hndk2)
  have hlt1 : (sortByKey l1).Pairwise (fun a b => a.1 < b.1 ∨ a = b) :=
    (hs1.and hne1).imp (fun hab => Or.inl (lt_of_le_of_ne hab.1 hab.2))
  have hlt2 : (sortByKey l2).Pairwise (fun a b => a.1 < b.1 ∨ a = b) :=
    (hs2.and hne2).imp (fun hab => Or.inl (lt_of_le_of_ne hab.1 hab.2))
  haveI : IsAntisymm (String × String) (fun a b => a.1 < b.1 ∨ a = b) := by
    constructor
    intro a b hab hba
    rcases hab with h1 | h1
    · rcases hba with h2 | h2
      · exact absurd (lt_trans h1 h2) (lt_irrefl _)
      · exact h2.symm
    · exact h1
  exact List.eq_of_perm_of_sorted hsp hlt1 hlt2

theorem goMapFmt_congr {l1 l2 : List (String × String)} (h : MapPerm l1 l2) :
    goMapFmt l1 = goMapFmt l2 := by
  unfold goMapFmt
  rw [sortByKey_eq_of_mapPerm h]

theorem compareHeaderMutation_congr (ph : ProcessingPhase) {a b : HeaderMutationExp}
    (h : hmExpEquiv a b) (resp : Option CommonResponse) :
    (compareHeaderMutation ph a resp).Perm (compareHeaderMutation ph b resp) := by
  obtain ⟨⟨hperm, _⟩, hrem⟩ := h
  have hlen : a.setHeaders.length = b.setHeaders.length := hperm.length_eq
  cases resp with
  | none =>
    simp only [compareHeaderMutation]
    rw [hrem, hlen]
  | some cr =>
    cases hhm : cr.headerMutation with
    | none =>
      simp only [compareHeaderMutation, hhm]
      rw [hrem, hlen]
    | some hm =>
      simp only [compareHeaderMutation, hhm]
      rw [hrem]
      exact (hperm.filterMap _).append (List.Perm.refl _)

theorem compareSetHeaders_congr (ph : ProcessingPhase)
    {l1 l2 : List (String × String)} (h : MapPerm l1 l2)
    (resp : Option CommonResponse) :
    (compareSetHeaders ph l1 resp).Perm (compareSetHeaders ph l2 resp) := by
  have hlen := h.1.length_eq
  cases resp with
  | none =>
    simp only [compareSetHeaders]
    rw [hlen, goMapFmt_congr h]
  | some cr =>
    cases hhm : cr.headerMutation with
    | none =>
      simp only [compareSetHeaders, hhm]
      rw [hlen, goMapFmt_congr h]
    | some hm =>
      simp only [compareSetHeaders, hhm]
      exact h.1.filterMap _

theorem compareHeadersResponse_congr (ph : ProcessingPhase) {a b : HeadersExpectation}
    (resp : ProcessingResponse)
    (hc : match a.commonResponse, b.commonResponse with
          | some ca, some cb =>
            (match ca.headerMutation, cb.headerMutation with
             | some ha, some hb => hmExpEquiv ha hb
             | none, none => True
             | _, _ => False)
          | none, none => True
          | _, _ => False)
    (hset : MapPerm a.setHeaders b.setHeaders)
    (hrem : a.removeHeaders = b.removeHeaders) :
    (compareHeadersResponse ph a resp).Perm (compareHeadersResponse ph b resp) := by
  have hlen := hset.1.length_eq
  unfold compareHeadersResponse
  cases hg : resp.getRequestHeaders.orElse (fun _ => resp.getResponseHeaders) with
  | none => exact List.Perm.refl _
  | some actual =>
    refine List.Perm.append (List.Perm.append ?_ ?_) ?_
    · cases hca : a.commonResponse with
      | none =>
        cases hcb : b.commonResponse with
        | none => exact List.Perm.refl _
        | some cb => rw [hca, hcb] at hc; exact hc.elim
      | some ca =>
        cases hcb : b.commonResponse with
        | none => rw [hca, hcb] at hc; exact hc.elim
        | some cb =>
          rw [hca, hcb] at hc
          have hc2 : (match ca.headerMutation, cb.headerMutation with
                      | some ha, some hb => hmExpEquiv ha hb
                      | none, none => True
                      | _, _ => False) := hc
          show (match ca.headerMutation with
                | some hm => compareHeaderMutation ph hm actual.response
                | none => []).Perm
            (match cb.headerMutation with
             | some hm => compareHeaderMutation ph hm actual.response
             | none => [])
          cases hha : ca.headerMutation with
          | none =>
            cases hhb : cb.headerMutation with
            | none => exact List.Perm.refl _
            | some hb2 => rw [hha, hhb] at hc2; exact hc2.elim
          | some ha2 =>
            cases hhb : cb.headerMutation with
            | none => rw [hha, hhb] at hc2; exact hc2.elim
            | some hb2 =>
              rw [hha, hhb] at hc2
              exact compareHeaderMutation_congr ph hc2 actual.response
    · by_cases hsl : a.setHeaders.length > 0
      · rw [if_pos hsl, if_pos (hlen ▸ hsl)]
        exact compareSetHeaders_congr ph hset actual.response
      · rw [if_neg hsl, if_neg (hlen ▸ hsl)]
    · rw [hrem]

theorem compareTrailersResponse_congr (ph : ProcessingPhase) {a b : TrailersExpectation}
    (resp : ProcessingResponse) (hset : MapPerm a.setTrailers b.setTrailers) :
    (compareTrailersResponse ph a resp).Perm (compareTrailersResponse ph b resp) := by
  have hlen := hset.1.length_eq
  unfold compareTrailersResponse
  cases hg : resp.getRequestTrailers.orElse (fun _ => resp.getResponseTrailers) with
  | none => exact List.Perm.refl _
  | some actual =>
    show (if a.setTrailers.length > 0 then
            match actual.headerMutation with
            | some hm => a.setTrailers.filterMap (setTrailersKeyDiff ph hm.setHeaders)
            | none => []
          else []).Perm
      (if b.setTrailers.length > 0 then
         match actual.headerMutation with
         | some hm => b.setTrailers.filterMap (setTrailersKeyDiff ph hm.setHeaders)
         | none => []
       else [])
    by_cases hsl : a.setTrailers.length > 0
    · rw [if_pos hsl, if_pos (hlen ▸ hsl)]
      cases actual.headerMutation with
      | none => exact List.Perm.refl _
      | some hm => exact hset.1.filterMap _
    · rw [if_neg hsl, if_neg (hlen ▸ hsl)]

theorem compareImmediateResponse_congr (ph : ProcessingPhase) {a b : ImmediateExpectation}
    (resp : ProcessingResponse)
    (hsc : a.statusCode = b.statusCode) (hbd : a.body = b.body)
    (hhd : MapPerm a.headers b.headers) :
    (compareImmediateResponse ph a resp).Perm (compareImmediateResponse ph b resp) := by
  have hlen := hhd.1.length_eq
  unfold compareImmediateResponse
  cases hg : resp.getImmediateResponse with
  | none => exact List.Perm.refl _
  | some actual =>
    refine List.Perm.append (List.Perm.append ?_ ?_) ?_
    · rw [hsc]
    · rw [hbd]
    · by_cases hl : a.headers.length > 0
      · rw [if_pos hl, if_pos (hlen ▸ hl)]
        cases actual.headers with
        | none => exact List.Perm.refl _
        | some hm => exact hhd.1.filterMap _
      · rw [if_neg hl, if_neg (hlen ▸ hl)]

theorem compareExpectation_congr {e1 e2 : ExtProcExpectation} (he : expEquiv e1 e2)
    (resp : ProcessingResponse) :
    (compareExpectation e1 resp).Perm (compareExpectation e2 resp) := by
  obtain ⟨hph, hresp⟩ := he
  unfold compareExpectation
  cases h1 : e1.response with
  | none =>
    cases h2 : e2.response with
    | none => exact List.Perm.refl _
    | some v2 =>
      rw [h1, h2] at hresp
      cases v2 <;> exact hresp.elim
  | some v1 =>
    cases h2 : e2.response with
    | none =>
      rw [h1, h2] at hresp
      cases v1 <;> exact hresp.elim
    | some v2 =>
      rw [h1, h2] at hresp
      cases v1 with
      | headersResponse a =>
        cases v2 with
        | headersResponse b2 =>
          rw [hph]
          exact compareHeadersResponse_congr e2.phase resp hresp.1 hresp.2.1 hresp.2.2
        | bodyResponse b2 => exact hresp.elim
        | trailersResponse b2 => exact hresp.elim
        | immediateResponse b2 => exact hresp.elim
      | bodyResponse a =>
        cases v2 with
        | headersResponse b2 => exact hresp.elim
        | bodyResponse b2 =>
          rw [hph, show a = b2 from hresp]
        | trailersResponse b2 => exact hresp.elim
        | immediateResponse b2 => exact hresp.elim
      | trailersResponse a =>
        cases v2 with
        | headersResponse b2 => exact hresp.elim
        | bodyResponse b2 => exact hresp.elim
        | trailersResponse b2 =>
          rw [hph]
          exact compareTrailersResponse_congr e2.phase resp hresp.1
        | immediateResponse b2 => exact hresp.elim
      | immediateResponse a =>
        cases v2 with
        | headersResponse b2 => exact hresp.elim
        | bodyResponse b2 => exact hresp.elim
        | trailersResponse b2 => exact hresp.elim
        | immediateResponse b2 =>
          rw [hph]
          exact compareImmediateResponse_congr e2.phase resp hresp.1 hresp.2.1 hresp.2.2.1

theorem perm_isEmpty_eq {α : Type} {l1 l2 : List α} (h : l1.Perm l2) :
    l1.isEmpty = l2.isEmpty := by
  rw [Bool.eq_iff_iff, List.isEmpty_iff, List.isEmpty_iff]
  constructor
  · intro h1
    rw [h1] at h
    exact h.symm.eq_nil
  · intro h2
    rw [h2] at h
    exact h.eq_nil

theorem matchesExp_congr {e1 e2 : ExtProcExpectation} (he : expEquiv e1 e2)
    (pr : PhaseResponse) : matchesExp e1 pr = matchesExp e2 pr := by
  unfold matchesExp
  rw [he.1, perm_isEmpty_eq (compareExpectation_congr he pr.response)]

theorem satExp_congr {e1 e2 : ExtProcExpectation} (he : expEquiv e1 e2)
    (r : ProcessingResult) : satExp r e1 = satExp r e2 := by
  unfold satExp
  exact congrArg _ (funext fun pr => matchesExp_congr he pr)

theorem scanResponses_congr {e1 e2 : ExtProcExpectation} (he : expEquiv e1 e2)
    (rs : List PhaseResponse) :
    (scanResponses e1 rs).1.Perm (scanResponses e2 rs).1
    ∧ (scanResponses e1 rs).2 = (scanResponses e2 rs).2 := by
  induction rs with
  | nil => exact ⟨List.Perm.refl _, rfl⟩
  | cons resp rest ih =>
    have hd := compareExpectation_congr he resp.response
    have hie := perm_isEmpty_eq hd
    simp only [scanResponses]
    rw [← he.1, ← hie]
    by_cases hp : resp.phase = e1.phase
    · rw [if_pos hp, if_pos hp]
      by_cases hemp : (compareExpectation e1 resp.response).isEmpty = true
      · rw [if_pos hemp, if_pos hemp]
        exact ⟨List.Perm.refl _, rfl⟩
      · rw [if_neg hemp, if_neg hemp]
        exact ⟨hd.append ih.1, ih.2⟩
    · rw [if_neg hp, if_neg hp]
      exact ih

/-- **C7 (amended).** `Compare` is deterministic up to map iteration order:
two expectation lists denoting the same values (pointwise equal except that
map-valued fields are listed in possibly different orders) yield the same
`Passed` value, `Differences` lists that are permutations of each other,
equivalent `Matched` lists (equivalent expectations matched to the same
responses), and equivalent `Unmatched` lists.  The exact order of
`Differences` can vary between two calls because Go map iteration order is
unspecified. -/
theorem C7_amended_deterministic_up_to_map_order
    (es1 es2 : List ExtProcExpectation) (r : ProcessingResult)
    (h : List.Forall₂ expEquiv es1 es2) :
    (Compare es1 r).passed = (Compare es2 r).passed
    ∧ (Compare es1 r).differences.Perm (Compare es2 r).differences
    ∧ List.Forall₂ matchedEquiv (Compare es1 r).matched (Compare es2 r).matched
    ∧ List.Forall₂ expEquiv (Compare es1 r).unmatched (Compare es2 r).unmatched := by
  rw [Compare_closed, Compare_closed]
  refine ⟨?_, ?_, ?_, ?_⟩
  · show es1.all (satExp r) = es2.all (satExp r)
    induction h with
    | nil => rfl
    | cons he htl ih =>
      rename_i a b l1 l2
      rw [List.all_cons, List.all_cons, satExp_congr he r, ih]
  · show (es1.flatMap fun e => (scanResponses e r.responses).1).Perm
      (es2.flatMap fun e => (scanResponses e r.responses).1)
    induction h with
    | nil => exact List.Perm.refl _
    | cons he htl ih =>
      rename_i a b l1 l2
      simp only [List.flatMap_cons]
      exact ((scanResponses_congr he r.responses).1).append ih
  · show List.Forall₂ matchedEquiv
      (es1.filterMap fun e =>
        ((scanResponses e r.responses).2).map (fun pr => ⟨e, pr⟩))
      (es2.filterMap fun e =>
        ((scanResponses e r.responses).2).map (fun pr => ⟨e, pr⟩))
    induction h with
    | nil => exact List.Forall₂.nil
    | cons he htl ih =>
      rename_i a b l1 l2
      have hsnd := (scanResponses_congr he r.responses).2
      simp only [List.filterMap_cons]
      cases hscan : (scanResponses a r.responses).2 with
      | none =>
        rw [hscan] at hsnd
        rw [← hsnd]
        simpa using ih
      | some pr =>
        rw [hscan] at hsnd
        rw [← hsnd]
        simp only [Option.map_some']
        exact List.Forall₂.cons ⟨he, rfl⟩ ih
  · show List.Forall₂ expEquiv (es1.filter fun e => !satExp r e)
      (es2.filter fun e => !satExp r e)
    induction h with
    | nil => exact List.Forall₂.nil
    | cons he htl ih =>
      rename_i a b l1 l2
      have hsb : satExp r b = satExp r a := (satExp_congr he r).symm
      cases hsat : satExp r a with
      | false =>
        simp only [List.filter_cons, hsb, hsat, Bool.not_false, if_pos]
        exact List.Forall₂.cons he ih
      | true =>
        simp only [List.filter_cons, hsb, hsat, Bool.not_true]
        simpa using ih

/-- Witness for C7 (amended) at a concrete input: the two iteration orders
of a two-entry map yield the same verdict and permuted differences. -/
theorem C7_amended_witness :
    List.Forall₂ expEquiv [hdrExp [("a", "1"), ("b", "2")]] [hdrExp [("b", "2"), ("a", "1")]]
    ∧ (Compare [hdrExp [("a", "1"), ("b", "2")]]
        ⟨[⟨.REQUEST_HEADERS, hdrResp []⟩]⟩).passed
      = (Compare [hdrExp [("b", "2"), ("a", "1")]]
        ⟨[⟨.REQUEST_HEADERS, hdrResp []⟩]⟩).passed
    ∧ (Compare [hdrExp [("a", "1"), ("b", "2")]]
        ⟨[⟨.REQUEST_HEADERS, hdrResp []⟩]⟩).differences.Perm
      (Compare [hdrExp [("b", "2"), ("a", "1")]]
        ⟨[⟨.REQUEST_HEADERS, hdrResp []⟩]⟩).differences := by
  have hequiv : List.Forall₂ expEquiv
      [hdrExp [("a", "1"), ("b", "2")]] [hdrExp [("b", "2"), ("a", "1")]] := by
    refine List.Forall₂.cons ⟨rfl, ?_⟩ List.Forall₂.nil
    exact ⟨trivial, ⟨by decide, by decide⟩, rfl⟩
  have h := C7_amended_deterministic_up_to_map_order
    [hdrExp [("a", "1"), ("b", "2")]] [hdrExp [("b", "2"), ("a", "1")]]
    ⟨[⟨.REQUEST_HEADERS, hdrResp []⟩]⟩ hequiv
  exact ⟨hequiv, h.1, h.2.1⟩
